import Mathlib

/-
Verification of the warehouse-delivery analytics core: a shallow embedding of
`src/data_processor.py` and `src/utils.py` over exact rationals (pandas floats
are modelled by ℚ; all divisions appearing in the code are exact here), with
theorems settling the specification claims.

Modelling conventions:
* A pandas timestamp is an abstract integer time point; `pd.to_datetime(...,
  errors='coerce')` of an unparseable value is `none` (NaT), and comparisons
  with NaT are false, as in pandas.
* `pd.to_numeric(..., errors='coerce')` is modelled by storing the
  processing_time cell as `Option ℚ` (`none` = NaN after coercion).
* The `is_fulfilled` cell is `FVal`: a native boolean, a string, a small
  storage integer (the SQLite path stores booleans as 0/1), or missing.
  A pandas column has dtype `object` unless every cell is a native boolean.
* A DataFrame is a list of rows plus the frame-level fact of whether the
  `is_fulfilled` column exists (`DFrame`).  Derived columns that the Python
  functions assign onto the caller's frame are `Option`-valued fields of `Row`
  that start as `none`; the post-call state of the frame is given by the
  `after*` functions next to each result function.
* `order_date.dt.date` is the abstract day key `order_date` itself; the
  `month`/`day_of_week` parts are calendar projections of the same cell and no
  claim depends on their values, only on the fact that `analyze_trends`
  assigns new columns, which `afterAnalyzeTrends` records via the date column.
-/

namespace WD

/-- Value of an `is_fulfilled` cell as it can arrive in the frame. -/
inductive FVal where
  | fbool (b : Bool)
  | fstr (s : String)
  | fnum (n : Nat)
  | fnone
deriving DecidableEq

/-- The five labels of `pd.cut` in `identify_bottlenecks`. -/
inductive Stage where
  | Rapid
  | Normal
  | Extended
  | Delayed
  | Critical
deriving DecidableEq

/-- One joined order/warehouse/product row.  The last six fields are the
derived columns the analysis functions write onto the caller's frame; they are
`none` while the column has not been assigned. -/
structure Row where
  order_id : Nat
  warehouse_id : Nat
  warehouse_name : String
  warehouse_location : String
  processing_time : Option ℚ
  expected_delivery_date : Option Int
  actual_delivery_date : Option Int
  order_date : Option Int
  order_status : Option String
  is_fulfilled : FVal
  team_assignment : Option String
  product_category : Option String
  processing_time_numeric : Option (Option ℚ)
  is_delayed : Option Bool
  fulfilled : Option Bool
  stage_col : Option (Option Stage)
  date_col : Option (Option Int)
deriving DecidableEq

/-- A frame: its rows and whether the `is_fulfilled` column is present
(`calculate_fulfillment_rate` branches on `'is_fulfilled' in df.columns`). -/
structure DFrame where
  rows : List Row
  hasFulfilledCol : Bool
deriving DecidableEq

/-- Character-list test: `pat` occurs at the head of `hay`. -/
def headMatch : List Char → List Char → Bool
  | [], _ => true
  | _ :: _, [] => false
  | p :: ps, h :: hs => p == h && headMatch ps hs

/-- Character-list substring test. -/
def subMatch : List Char → List Char → Bool
  | pat, [] => pat.isEmpty
  | pat, h :: hs => headMatch pat (h :: hs) || subMatch pat hs

/-- ASCII lowercasing of one character; the strings this dashboard matches
(team names, categories, order statuses) are ASCII, where Python `str.lower`
agrees with this. -/
def lowerChar (c : Char) : Char :=
  if 65 ≤ c.toNat ∧ c.toNat ≤ 90 then Char.ofNat (c.toNat + 32) else c

/-- ASCII lowercasing of a string, the model of `str.lower()`. -/
def lowerStr (s : String) : String :=
  String.mk (s.data.map lowerChar)

/-- `Series.str.contains(pat, case=False, na=False)` for one literal pattern:
missing cells never match, otherwise case-insensitive substring test. -/
def strContainsCI (cell : Option String) (pat : String) : Bool :=
  match cell with
  | none => false
  | some s => subMatch (lowerStr pat).toList (lowerStr s).toList

/-- Mean of a list of rationals, with the 0 the callers substitute for an
empty (NaN) pandas mean. -/
def meanOr0 (xs : List ℚ) : ℚ :=
  if xs.isEmpty then 0 else xs.sum / xs.length

/-- A cell is a native boolean. -/
def isBoolVal : FVal → Bool
  | .fbool _ => true
  | _ => false

/-- The `is_fulfilled` column has pandas dtype `object` (it is not a pure
boolean column). -/
def objectDtype (col : List FVal) : Bool :=
  !(col.all isBoolVal)

/-- The Python map `{'True': 1, 'False': 0, True: 1, False: 0}` applied to one
cell by `.map`: native booleans and 0/1 numbers hit the `True`/`False` keys
(Python `1 == True`), the exact strings hit the string keys, everything else
is out of the dict and becomes NaN (`fnone`). -/
def mapFulfilled : FVal → FVal
  | .fbool b => .fnum (if b then 1 else 0)
  | .fstr s => if s = "True" then .fnum 1 else if s = "False" then .fnum 0 else .fnone
  | .fnum n => if n = 1 then .fnum 1 else if n = 0 then .fnum 0 else .fnone
  | .fnone => .fnone

/-- Contribution of one cell to a pandas column sum: NaN and strings add 0
(pandas `sum` skips NaN; string cells never reach a sum in the code because
an object column is mapped first), booleans count as 0/1. -/
def fvalSum : FVal → Nat
  | .fbool b => if b then 1 else 0
  | .fnum n => n
  | .fstr _ => 0
  | .fnone => 0

/-- Sum of the `is_fulfilled` column as `calculate_fulfillment_rate` takes it:
an object column is first rewritten through `mapFulfilled`. -/
def fulfilledColSum (col : List FVal) : Nat :=
  if objectDtype col then ((col.map mapFulfilled).map fvalSum).sum
  else (col.map fvalSum).sum

/-- Row-level test used by the fallback branch: `order_status.str.lower()`
is one of the fulfilled statuses (a missing status is NaN, `isin` false). -/
def statusFulfilled (r : Row) : Bool :=
  match r.order_status with
  | none => false
  | some s => ["delivered", "completed", "fulfilled"].contains (lowerStr s)

/-- Row-level value of the derived `is_delayed` flag:
`(actual_delivery_date > expected_delivery_date)` with NaT comparing false. -/
def isDelayedRow (r : Row) : Bool :=
  match r.actual_delivery_date, r.expected_delivery_date with
  | some a, some e => e < a
  | _, _ => false

/-- The `stage` label `pd.cut(x, bins=[0, 2, 6, 12, 24, inf], labels=[...])`
assigns: intervals are left-open right-closed, values outside `(0, ∞)` and
NaN get no label. -/
def stageOf : Option ℚ → Option Stage
  | none => none
  | some t =>
    if 0 < t ∧ t ≤ 2 then some .Rapid
    else if 2 < t ∧ t ≤ 6 then some .Normal
    else if 6 < t ∧ t ≤ 12 then some .Extended
    else if 12 < t ∧ t ≤ 24 then some .Delayed
    else if 24 < t then some .Critical
    else none

/-- `calculate_avg_handling_time`: mean of the coerced numeric
processing_time column, 0 when the mean is NaN (no numeric value). -/
def calculate_avg_handling_time (rows : List Row) : ℚ :=
  meanOr0 (rows.filterMap (·.processing_time))

/-- Frame state after `calculate_avg_handling_time`: the call assigned the
`processing_time_numeric` column onto the caller's frame. -/
def afterAvgHandlingTime (rows : List Row) : List Row :=
  rows.map (fun r => { r with processing_time_numeric := some r.processing_time })

/-- `calculate_delay_percentage`: share of rows whose `is_delayed` flag is 1,
as a percentage; 0 on an empty frame. -/
def calculate_delay_percentage (rows : List Row) : ℚ :=
  if rows.isEmpty then 0
  else ((rows.countP isDelayedRow : ℚ) / rows.length) * 100

/-- Frame state after `calculate_delay_percentage`: on a non-empty frame the
call coerced the date columns and assigned `is_delayed`. -/
def afterDelayPercentage (rows : List Row) : List Row :=
  if rows.isEmpty then rows
  else rows.map (fun r => { r with is_delayed := some (isDelayedRow r) })

/-- `calculate_fulfillment_rate`: 0 on an empty frame; with the
`is_fulfilled` column present, the (possibly mapped) column sum over the row
count as a percentage; only with the column absent, the `order_status`
fallback count over the row count. -/
def calculate_fulfillment_rate (df : DFrame) : ℚ :=
  if df.rows.isEmpty then 0
  else if df.hasFulfilledCol then
    ((fulfilledColSum (df.rows.map (·.is_fulfilled)) : ℚ) / df.rows.length) * 100
  else
    ((df.rows.countP statusFulfilled : ℚ) / df.rows.length) * 100

/-- Frame state after `calculate_fulfillment_rate`: an object-typed
`is_fulfilled` column is overwritten with its mapped values; with the column
absent, the derived `fulfilled` column is assigned. -/
def afterFulfillmentRate (df : DFrame) : DFrame :=
  if df.rows.isEmpty then df
  else if df.hasFulfilledCol then
    if objectDtype (df.rows.map (·.is_fulfilled)) then
      ⟨df.rows.map (fun r => { r with is_fulfilled := mapFulfilled r.is_fulfilled }),
        df.hasFulfilledCol⟩
    else df
  else
    ⟨df.rows.map (fun r => { r with fulfilled := some (statusFulfilled r) }),
      df.hasFulfilledCol⟩

/-- Warehouse grouping key of `get_warehouse_performance`. -/
structure WKey where
  warehouse_id : Nat
  warehouse_name : String
  warehouse_location : String
deriving DecidableEq

/-- Grouping key of a row. -/
def wkey (r : Row) : WKey :=
  ⟨r.warehouse_id, r.warehouse_name, r.warehouse_location⟩

/-- One row of the warehouse performance summary. -/
structure WRow where
  warehouse_id : Nat
  warehouse_name : String
  warehouse_location : String
  avg_processing_time : ℚ
  delay_rate : ℚ
  fulfillment_rate : ℚ
  order_count : Nat
  performance_score : ℚ
deriving DecidableEq

/-- The performance score formula applied to one summary row's metrics. -/
def perfScore (apt dr fr : ℚ) : ℚ :=
  apt * 0.4 + dr * 0.4 - fr * 0.2

/-- `get_warehouse_performance`: per distinct warehouse key, group means of
the coerced processing time, the delay flag and the (possibly mapped)
fulfillment column scaled to percentages, the group size, and the score. -/
def get_warehouse_performance (rows : List Row) : List WRow :=
  if rows.isEmpty then []
  else
    let obj := objectDtype (rows.map (·.is_fulfilled))
    let fNum : Row → FVal := fun r =>
      if obj then mapFulfilled r.is_fulfilled else r.is_fulfilled
    ((rows.map wkey).dedup).map (fun k =>
      let g := rows.filter (fun r => wkey r == k)
      let apt := meanOr0 (g.filterMap (·.processing_time))
      let dr := meanOr0 (g.map (fun r => if isDelayedRow r then (1 : ℚ) else 0)) * 100
      let fr := meanOr0 ((g.map fNum).filterMap (fun v =>
        match v with
        | .fbool b => some (if b then (1 : ℚ) else 0)
        | .fnum n => some (n : ℚ)
        | _ => none)) * 100
      { warehouse_id := k.warehouse_id
        warehouse_name := k.warehouse_name
        warehouse_location := k.warehouse_location
        avg_processing_time := apt
        delay_rate := dr
        fulfillment_rate := fr
        order_count := g.length
        performance_score := perfScore apt dr fr })

/-- Frame state after `get_warehouse_performance`: on a non-empty frame the
call assigned `processing_time_numeric`, `is_delayed` and (for an object
column) the mapped `is_fulfilled` values. -/
def afterWarehousePerformance (rows : List Row) : List Row :=
  if rows.isEmpty then rows
  else rows.map (fun r =>
    { r with
      processing_time_numeric := some r.processing_time
      is_delayed := some (isDelayedRow r)
      is_fulfilled := if objectDtype (rows.map (·.is_fulfilled)) then
        mapFulfilled r.is_fulfilled else r.is_fulfilled })

/-- One row of the bottleneck analysis: a (warehouse, stage) group and its
size. -/
structure BRow where
  warehouse_id : Nat
  warehouse_name : String
  stage : Stage
  count : Nat
deriving DecidableEq

/-- The (warehouse_id, warehouse_name, stage) key of every row that received
a stage label; rows without a label fall out. -/
def stagedKeys (rows : List Row) : List (Nat × String × Stage) :=
  rows.filterMap (fun r =>
    (stageOf r.processing_time).map (fun s => (r.warehouse_id, r.warehouse_name, s)))

/-- `identify_bottlenecks`: label each row's stage, then the group sizes by
(warehouse_id, warehouse_name, stage); rows without a stage label fall out of
the grouping. -/
def identify_bottlenecks (rows : List Row) : List BRow :=
  if rows.isEmpty then []
  else (stagedKeys rows).dedup.map (fun k =>
    ⟨k.1, k.2.1, k.2.2, (stagedKeys rows).countP (fun x => decide (x = k))⟩)

/-- Frame state after `identify_bottlenecks`: on a non-empty frame the call
assigned `processing_time_numeric` and the `stage` column. -/
def afterBottlenecks (rows : List Row) : List Row :=
  if rows.isEmpty then rows
  else rows.map (fun r =>
    { r with
      processing_time_numeric := some r.processing_time
      stage_col := some (stageOf r.processing_time) })

/-- One row of the trend analysis: a calendar day, its mean coerced
processing time and its row count. -/
structure TRow where
  date : Int
  avg_processing_time : ℚ
  order_count : Nat
deriving DecidableEq

/-- `analyze_trends`: group the frame by the calendar day of `order_date`
(rows with an unparseable date fall out of the grouping) and take the mean
coerced processing time and the size per day. -/
def analyze_trends (rows : List Row) : List TRow :=
  if rows.isEmpty then []
  else
    ((rows.filterMap (·.order_date)).dedup).map (fun d =>
      let g := rows.filter (fun r => r.order_date == some d)
      ⟨d, meanOr0 (g.filterMap (·.processing_time)), g.length⟩)

/-- Frame state after `analyze_trends`: on a non-empty frame the call coerced
`order_date` and assigned the `date`, `month` and `day_of_week` columns; the
date column stands for all three here. -/
def afterAnalyzeTrends (rows : List Row) : List Row :=
  if rows.isEmpty then rows
  else rows.map (fun r =>
    { r with
      date_col := some r.order_date
      processing_time_numeric := some r.processing_time })

/-- Row predicate of the "Brand Team" preset. -/
def brandPred (r : Row) : Bool :=
  strContainsCI r.team_assignment "Brand" ||
    (strContainsCI r.product_category "Premium" || strContainsCI r.product_category "Luxury")

/-- Row predicate of the "Performance Team" preset. -/
def performancePred (r : Row) : Bool :=
  strContainsCI r.team_assignment "Performance" || strContainsCI r.team_assignment "Operations"

/-- Row predicate of the "Social Media Team" preset. -/
def socialPred (r : Row) : Bool :=
  (strContainsCI r.team_assignment "Social" || strContainsCI r.team_assignment "Marketing") ||
    (strContainsCI r.product_category "Featured" || strContainsCI r.product_category "Campaign")

/-- `filter_data_by_team`: the named presets filter by their predicate,
"All Teams" and any unknown preset return the frame unchanged. -/
def filter_data_by_team (rows : List Row) (team_preset : String) : List Row :=
  if team_preset = "All Teams" then rows
  else if team_preset = "Brand Team" then rows.filter brandPred
  else if team_preset = "Performance Team" then rows.filter performancePred
  else if team_preset = "Social Media Team" then rows.filter socialPred
  else rows

/-- Frame state after `filter_data_by_team`: the function only reads the
frame (it returns a selection, assigning nothing), so the caller's frame is
unchanged. -/
def afterFilterByTeam (rows : List Row) (_team_preset : String) : List Row :=
  rows

/-- The metrics dict consumed by `generate_recommendations`; `.get(k, 0)`
reads a missing key as 0. -/
structure Metrics where
  avg_handling_time : Option ℚ
  delay_percentage : Option ℚ
  fulfillment_rate : Option ℚ
deriving DecidableEq

/-- Warning string for slow handling. -/
def handlingWarn : String :=
  "⚠️ Handling times are above target. Review warehouse processing workflows."

/-- Warning string for the delay rate. -/
def delayWarn : String :=
  "⚠️ Delay rates are concerning. Investigate shipping partners and internal processes."

/-- Warning string for the fulfillment rate. -/
def fulfillWarn : String :=
  "⚠️ Fulfillment rates are below target. Address inventory management."

/-- First Brand Team recommendation string. -/
def brandRec1 : String :=
  "Focus on premium product lines which currently have higher processing times."

/-- Second Brand Team recommendation string. -/
def brandRec2 : String :=
  "Consider dedicated handling for high-value items to maintain brand reputation."

/-- First Performance Team recommendation string. -/
def perfRec1 : String :=
  "Implement cross-training to reduce bottlenecks in the packaging stage."

/-- Second Performance Team recommendation string. -/
def perfRec2 : String :=
  "Review staff allocation during peak hours based on the time analysis."

/-- First Social Media Team recommendation string. -/
def socialRec1 : String :=
  "Coordinate warehouse staffing with upcoming social media campaigns."

/-- Second Social Media Team recommendation string. -/
def socialRec2 : String :=
  "Pre-stock frequently promoted items to reduce processing time during campaign periods."

/-- The three metric warnings `generate_recommendations` collects, in code
order. -/
def metricWarnings (metrics : Metrics) : List String :=
  (if metrics.avg_handling_time.getD 0 > 24 then [handlingWarn] else []) ++
    (if metrics.delay_percentage.getD 0 > 15 then [delayWarn] else []) ++
      (if metrics.fulfillment_rate.getD 0 < 90 then [fulfillWarn] else [])

/-- The preset-specific strings `generate_recommendations` appends. -/
def teamRecs (team_preset : String) : List String :=
  if team_preset = "Brand Team" then [brandRec1, brandRec2]
  else if team_preset = "Performance Team" then [perfRec1, perfRec2]
  else if team_preset = "Social Media Team" then [socialRec1, socialRec2]
  else []

/-- `generate_recommendations`: threshold warnings followed by the
preset-specific strings. -/
def generate_recommendations (metrics : Metrics) (team_preset : String) : List String :=
  metricWarnings metrics ++ teamRecs team_preset

/-- Sort order of `sort_values('avg_processing_time', ascending=False)`. -/
def slowRel (a b : WRow) : Prop :=
  b.avg_processing_time ≤ a.avg_processing_time

instance : DecidableRel slowRel := fun a b =>
  inferInstanceAs (Decidable (b.avg_processing_time ≤ a.avg_processing_time))

instance : IsTotal WRow slowRel :=
  ⟨fun a b => le_total b.avg_processing_time a.avg_processing_time⟩

instance : IsTrans WRow slowRel :=
  ⟨fun _ _ _ h h' => le_trans h' h⟩

/-- `get_slowest_warehouses`: empty in, empty out; otherwise the first `n`
rows of the summary sorted by descending average processing time. -/
def get_slowest_warehouses (wp : List WRow) (n : Nat) : List WRow :=
  if wp.isEmpty then []
  else (List.insertionSort slowRel wp).take n

/-- An `is_fulfilled` cell that survives the Python map as the number 1:
boolean true, the exact string "True", or the storage integer 1. -/
def usableTrue : FVal → Bool
  | .fbool b => b
  | .fstr s => s = "True"
  | .fnum n => n == 1
  | .fnone => false

/-- A concrete joined row used by the example theorems. -/
def cRowBase : Row :=
  ⟨1, 1, "W1", "L1", some 10, some 5, none, some 7, some "Delivered", .fbool true,
    some "Performance Team", some "Electronics", none, none, none, none, none⟩

/-- A row whose processing time sits on the 6-hour bucket edge. -/
def rowPT6 : Row :=
  { cRowBase with processing_time := some 6 }

/-- A row with an unusable `is_fulfilled` string and a fulfilled status. -/
def rowYes : Row :=
  { cRowBase with is_fulfilled := .fstr "yes", order_status := some "delivered" }

/-- A row delivered one unit after its expected date. -/
def rowDelayed : Row :=
  { cRowBase with expected_delivery_date := some 5, actual_delivery_date := some 6 }

/-- A row delivered exactly on its expected date. -/
def rowOnTime : Row :=
  { cRowBase with expected_delivery_date := some 5, actual_delivery_date := some 5 }

/-- A row with an unparseable processing time. -/
def rowNoTime : Row :=
  { cRowBase with processing_time := none }

/-- The warehouse summary row `get_warehouse_performance [cRowBase]`
produces. -/
def demoWRow : WRow :=
  ⟨1, "W1", "L1", 10, 0, 100, 1, -16⟩

/-- A second warehouse summary row, faster than `demoWRow`. -/
def demoWRow2 : WRow :=
  ⟨2, "W2", "L2", 5, 0, 100, 1, -18⟩

/-- Helper: a map is the identity on a list iff it fixes every element. -/
theorem map_eq_self_iff_forall {α : Type} (f : α → α) (l : List α) :
    l.map f = l ↔ ∀ x ∈ l, f x = x := by
  induction l with
  | nil => simp
  | cons a l ih => simp [ih]

/-- Helper: a map that moves one element of a list is not the identity. -/
theorem map_ne_self_of_mem {α : Type} {f : α → α} {l : List α} {x : α}
    (hx : x ∈ l) (hne : f x ≠ x) : l.map f ≠ l :=
  fun h => hne ((map_eq_self_iff_forall f l).mp h x hx)

/-- Helper: length of a filterMap counts the elements that survive. -/
theorem length_filterMap_eq_countP {α β : Type} (f : α → Option β) (l : List α) :
    (l.filterMap f).length = l.countP (fun x => (f x).isSome) := by
  induction l with
  | nil => rfl
  | cons a l ih =>
    cases h : f a <;> simp [List.filterMap_cons, h, List.countP_cons, ih]

/-- Helper: summing an indicator over a list counts the hits. -/
theorem sum_map_ite_one_zero {α : Type} (p : α → Bool) (l : List α) :
    (l.map (fun x => if p x then (1 : Nat) else 0)).sum = l.countP p := by
  induction l with
  | nil => rfl
  | cons a l ih => simp [List.countP_cons, ih, Nat.add_comm]

/-- Helper: the Python map turns a cell into the indicator of `usableTrue`. -/
theorem fvalSum_mapFulfilled (v : FVal) :
    fvalSum (mapFulfilled v) = if usableTrue v then 1 else 0 := by
  cases v with
  | fbool b => cases b <;> rfl
  | fstr s =>
    by_cases h : s = "True" <;> by_cases h2 : s = "False" <;>
      simp [mapFulfilled, usableTrue, fvalSum, h, h2]
  | fnum n =>
    by_cases h : n = 1 <;> by_cases h2 : n = 0 <;>
      simp [mapFulfilled, usableTrue, fvalSum, h, h2]
  | fnone => rfl

/-- Helper: summing an all-boolean column counts its `usableTrue` cells. -/
theorem sum_fvalSum_of_all_bool (col : List FVal)
    (hall : ∀ v ∈ col, isBoolVal v = true) :
    (col.map fvalSum).sum = col.countP usableTrue := by
  induction col with
  | nil => rfl
  | cons a l ih =>
    have ha := hall a (by simp)
    have hl := fun v hv => hall v (List.mem_cons_of_mem a hv)
    cases a with
    | fbool b => cases b <;> simp [fvalSum, usableTrue, List.countP_cons, ih hl, Nat.add_comm]
    | fstr s => simp [isBoolVal] at ha
    | fnum n => simp [isBoolVal] at ha
    | fnone => simp [isBoolVal] at ha

/-- Helper: the `is_fulfilled` column sum is the count of cells that read as
true, in both dtype branches. -/
theorem fulfilledColSum_eq_countP (col : List FVal) :
    fulfilledColSum col = col.countP usableTrue := by
  unfold fulfilledColSum
  split_ifs with h
  · rw [List.map_map]
    have hfun : (fvalSum ∘ mapFulfilled) = fun v => if usableTrue v then (1 : Nat) else 0 :=
      funext fvalSum_mapFulfilled
    rw [hfun, sum_map_ite_one_zero]
  · have hall : ∀ v ∈ col, isBoolVal v = true := by
      simpa [objectDtype, List.all_eq_true] using h
    exact sum_fvalSum_of_all_bool col hall

/-- Helper: a count-over-size percentage lies in [0, 100]. -/
theorem pct_mem_Icc (c len : Nat) (hc : c ≤ len) (hlen : 0 < len) :
    0 ≤ ((c : ℚ) / len) * 100 ∧ ((c : ℚ) / len) * 100 ≤ 100 := by
  have hl : (0 : ℚ) < len := by exact_mod_cast hlen
  have h1 : (c : ℚ) / len ≤ 1 := div_le_one_of_le₀ (by exact_mod_cast hc) (le_of_lt hl)
  have h0 : 0 ≤ (c : ℚ) / len := by positivity
  exact ⟨by positivity, by linarith⟩

/-- C5: on a non-empty dataset the delay percentage is 100 times the share of
rows with a present actual delivery date strictly after the expected one; a
row with a missing actual date is never delayed; two rows with exactly one
delayed give 50. -/
theorem C5_delay_percentage_formula (rows : List Row) (h : rows ≠ []) :
    calculate_delay_percentage rows =
      100 * (((rows.countP (fun r =>
        match r.actual_delivery_date, r.expected_delivery_date with
        | some a, some e => decide (e < a)
        | _, _ => false) : Nat) : ℚ) / rows.length)
    ∧ (∀ r : Row, r.actual_delivery_date = none → isDelayedRow r = false)
    ∧ calculate_delay_percentage [rowDelayed, rowOnTime] = 50 := by
  refine ⟨?_, ?_, ?_⟩
  · have hpred : (fun r : Row =>
        match r.actual_delivery_date, r.expected_delivery_date with
        | some a, some e => decide (e < a)
        | _, _ => false) = isDelayedRow := rfl
    cases rows with
    | nil => exact absurd rfl h
    | cons a l =>
      simp only [calculate_delay_percentage, List.isEmpty_cons, Bool.false_eq_true,
        if_false, hpred]
      rw [mul_comm]
  · intro r hr
    cases he : r.expected_delivery_date <;> simp [isDelayedRow, hr, he]
  · have h1 : isDelayedRow rowDelayed = true := by decide
    have h2 : isDelayedRow rowOnTime = false := by decide
    simp only [calculate_delay_percentage, List.isEmpty_cons, Bool.false_eq_true, if_false,
      List.countP_cons, List.countP_nil, h1, h2, List.length_cons, List.length_nil]
    norm_num

/-- C5 witness: the theorem instantiated at the concrete two-row dataset. -/
theorem C5_delay_percentage_witness :
    calculate_delay_percentage [rowDelayed, rowOnTime] =
      100 * ((([rowDelayed, rowOnTime].countP (fun r =>
        match r.actual_delivery_date, r.expected_delivery_date with
        | some a, some e => decide (e < a)
        | _, _ => false) : Nat) : ℚ) / ([rowDelayed, rowOnTime] : List Row).length)
    ∧ (∀ r : Row, r.actual_delivery_date = none → isDelayedRow r = false)
    ∧ calculate_delay_percentage [rowDelayed, rowOnTime] = 50 :=
  C5_delay_percentage_formula [rowDelayed, rowOnTime] (List.cons_ne_nil _ _)

/-- C6: the delay percentage and the fulfillment rate always lie in
[0, 100], whatever the dataset holds. -/
theorem C6_rates_in_range (rows : List Row) (df : DFrame) :
    0 ≤ calculate_delay_percentage rows ∧ calculate_delay_percentage rows ≤ 100
    ∧ 0 ≤ calculate_fulfillment_rate df ∧ calculate_fulfillment_rate df ≤ 100 := by
  have hdelay : 0 ≤ calculate_delay_percentage rows
      ∧ calculate_delay_percentage rows ≤ 100 := by
    cases rows with
    | nil => simp [calculate_delay_percentage]
    | cons a l =>
      have hp := pct_mem_Icc ((a :: l).countP isDelayedRow) (a :: l).length
        (List.countP_le_length _) (by simp)
      simpa [calculate_delay_percentage] using hp
  have hful : 0 ≤ calculate_fulfillment_rate df
      ∧ calculate_fulfillment_rate df ≤ 100 := by
    obtain ⟨rws, hcol⟩ := df
    cases rws with
    | nil => simp [calculate_fulfillment_rate]
    | cons a l =>
      cases hcol with
      | false =>
        have hp := pct_mem_Icc ((a :: l).countP statusFulfilled) (a :: l).length
          (List.countP_le_length _) (by simp)
        simpa [calculate_fulfillment_rate] using hp
      | true =>
        have hle : fulfilledColSum ((a :: l).map (·.is_fulfilled)) ≤ (a :: l).length := by
          rw [fulfilledColSum_eq_countP]
          calc ((a :: l).map (·.is_fulfilled)).countP usableTrue
              ≤ ((a :: l).map (·.is_fulfilled)).length := List.countP_le_length _
            _ = (a :: l).length := List.length_map _ _
        have hp := pct_mem_Icc (fulfilledColSum ((a :: l).map (·.is_fulfilled)))
          (a :: l).length hle (by simp)
        simpa [calculate_fulfillment_rate] using hp
  exact ⟨hdelay.1, hdelay.2, hful.1, hful.2⟩

/-- C6 witness: the bounds instantiated at the empty dataset and an empty
frame. -/
theorem C6_rates_in_range_witness :
    0 ≤ calculate_delay_percentage [] ∧ calculate_delay_percentage [] ≤ 100
    ∧ 0 ≤ calculate_fulfillment_rate ⟨[], true⟩
    ∧ calculate_fulfillment_rate ⟨[], true⟩ ≤ 100 :=
  C6_rates_in_range [] ⟨[], true⟩

/-- C7: every aggregate has its defined zero or empty value on an empty
dataset, and the average handling time is 0 as well when every processing
time is missing. -/
theorem C7_empty_inputs :
    calculate_avg_handling_time [] = 0
    ∧ (∀ rows : List Row, (∀ r ∈ rows, r.processing_time = none) →
        calculate_avg_handling_time rows = 0)
    ∧ calculate_delay_percentage [] = 0
    ∧ (∀ b : Bool, calculate_fulfillment_rate ⟨[], b⟩ = 0)
    ∧ get_warehouse_performance [] = []
    ∧ identify_bottlenecks [] = []
    ∧ analyze_trends [] = [] := by
  refine ⟨rfl, ?_, rfl, fun b => rfl, rfl, rfl, rfl⟩
  intro rows hall
  unfold calculate_avg_handling_time
  have hnil : rows.filterMap (·.processing_time) = [] := by
    simp only [List.filterMap_eq_nil_iff]
    exact hall
  rw [hnil]
  rfl

/-- C7 witness: the all-missing conjunct instantiated at a one-row dataset
with an unparseable processing time. -/
theorem C7_empty_inputs_witness :
    calculate_avg_handling_time [rowNoTime] = 0 :=
  C7_empty_inputs.2.1 [rowNoTime] (by decide)

/-- Helper: the handling warning appears iff its threshold fires. -/
theorem handlingWarn_mem_iff (m : Metrics) :
    handlingWarn ∈ metricWarnings m ↔ m.avg_handling_time.getD 0 > 24 := by
  have h1 : handlingWarn ≠ delayWarn := by decide
  have h2 : handlingWarn ≠ fulfillWarn := by decide
  unfold metricWarnings
  split_ifs with ha hb hc <;> simp_all

/-- Helper: the delay warning appears iff its threshold fires. -/
theorem delayWarn_mem_iff (m : Metrics) :
    delayWarn ∈ metricWarnings m ↔ m.delay_percentage.getD 0 > 15 := by
  have h1 : delayWarn ≠ handlingWarn := by decide
  have h2 : delayWarn ≠ fulfillWarn := by decide
  unfold metricWarnings
  split_ifs with ha hb hc <;> simp_all

/-- Helper: the fulfillment warning appears iff its threshold fires. -/
theorem fulfillWarn_mem_iff (m : Metrics) :
    fulfillWarn ∈ metricWarnings m ↔ m.fulfillment_rate.getD 0 < 90 := by
  have h1 : fulfillWarn ≠ handlingWarn := by decide
  have h2 : fulfillWarn ≠ delayWarn := by decide
  unfold metricWarnings
  split_ifs with ha hb hc <;> simp_all

/-- Helper: no warning string is among the preset-specific strings. -/
theorem warn_notin_teamRecs (p : String) :
    handlingWarn ∉ teamRecs p ∧ delayWarn ∉ teamRecs p ∧ fulfillWarn ∉ teamRecs p := by
  unfold teamRecs
  split_ifs <;> refine ⟨?_, ?_, ?_⟩ <;> decide

/-- C1 counterexample: at avg_handling_time 0, delay_percentage 18 and
fulfillment_rate 100 with the All-Teams preset, the code emits the delay
warning although 18 is not above 20, and appends no pair of default-preset
strings (the output has a single element). -/
theorem C1_counterexample :
    generate_recommendations ⟨some 0, some 18, some 100⟩ "All Teams" = [delayWarn]
    ∧ ¬ ((18 : ℚ) > 20)
    ∧ ([delayWarn] : List String).length = 1 := by
  refine ⟨?_, by norm_num, rfl⟩
  have h1 : ¬ ((0 : ℚ) > 24) := by norm_num
  have h2 : (18 : ℚ) > 15 := by norm_num
  have h3 : ¬ ((100 : ℚ) < 90) := by norm_num
  simp [generate_recommendations, metricWarnings, teamRecs, h1, h2, h3]

/-- C1 amended: the warnings fire at the code's thresholds (handling > 24,
delay > 15, fulfillment < 90) and precede the preset strings; exactly two
preset strings are appended for each of the three named team presets and
none for any other preset, All Teams included. -/
theorem C1_amended (m : Metrics) (p : String) :
    generate_recommendations m p = metricWarnings m ++ teamRecs p
    ∧ (handlingWarn ∈ generate_recommendations m p ↔ m.avg_handling_time.getD 0 > 24)
    ∧ (delayWarn ∈ generate_recommendations m p ↔ m.delay_percentage.getD 0 > 15)
    ∧ (fulfillWarn ∈ generate_recommendations m p ↔ m.fulfillment_rate.getD 0 < 90)
    ∧ ((p = "Brand Team" ∨ p = "Performance Team" ∨ p = "Social Media Team") →
        (teamRecs p).length = 2)
    ∧ (p ≠ "Brand Team" → p ≠ "Performance Team" → p ≠ "Social Media Team" →
        teamRecs p = []) := by
  refine ⟨rfl, ?_, ?_, ?_, ?_, ?_⟩
  · rw [generate_recommendations, List.mem_append]
    simp [handlingWarn_mem_iff, (warn_notin_teamRecs p).1]
  · rw [generate_recommendations, List.mem_append]
    simp [delayWarn_mem_iff, (warn_notin_teamRecs p).2.1]
  · rw [generate_recommendations, List.mem_append]
    simp [fulfillWarn_mem_iff, (warn_notin_teamRecs p).2.2]
  · rintro (rfl | rfl | rfl) <;> rfl
  · intro h1 h2 h3
    unfold teamRecs
    rw [if_neg h1, if_neg h2, if_neg h3]

/-- C1 witness: the amended theorem instantiated at concrete metrics, the
Brand Team preset and an unknown preset. -/
theorem C1_amended_witness :
    generate_recommendations ⟨some 30, some 10, some 80⟩ "Brand Team" =
      metricWarnings ⟨some 30, some 10, some 80⟩ ++ teamRecs "Brand Team"
    ∧ (teamRecs "Brand Team").length = 2
    ∧ teamRecs "Unknown" = [] :=
  ⟨(C1_amended ⟨some 30, some 10, some 80⟩ "Brand Team").1,
    (C1_amended ⟨some 30, some 10, some 80⟩ "Brand Team").2.2.2.2.1 (Or.inl rfl),
    (C1_amended ⟨some 30, some 10, some 80⟩ "Unknown").2.2.2.2.2
      (by decide) (by decide) (by decide)⟩

/-- Helper: the Rapid label characterised by its bucket. -/
theorem stageOf_rapid (t : ℚ) : stageOf (some t) = some Stage.Rapid ↔ 0 < t ∧ t ≤ 2 := by
  constructor
  · intro h
    simp only [stageOf] at h
    split_ifs at h with h1 h2 h3 h4 h5 <;> simp_all
  · rintro ⟨ha, hb⟩
    simp only [stageOf]
    rw [if_pos ⟨ha, hb⟩]

/-- Helper: the Normal label characterised by its bucket. -/
theorem stageOf_normal (t : ℚ) : stageOf (some t) = some Stage.Normal ↔ 2 < t ∧ t ≤ 6 := by
  constructor
  · intro h
    simp only [stageOf] at h
    split_ifs at h with h1 h2 h3 h4 h5 <;> simp_all
  · rintro ⟨ha, hb⟩
    simp only [stageOf]
    rw [if_neg (by rintro ⟨_, hx⟩; linarith), if_pos ⟨ha, hb⟩]

/-- Helper: the Extended label characterised by its bucket. -/
theorem stageOf_extended (t : ℚ) :
    stageOf (some t) = some Stage.Extended ↔ 6 < t ∧ t ≤ 12 := by
  constructor
  · intro h
    simp only [stageOf] at h
    split_ifs at h with h1 h2 h3 h4 h5 <;> simp_all
  · rintro ⟨ha, hb⟩
    simp only [stageOf]
    rw [if_neg (by rintro ⟨_, hx⟩; linarith), if_neg (by rintro ⟨_, hx⟩; linarith),
      if_pos ⟨ha, hb⟩]

/-- Helper: the Delayed label characterised by its bucket. -/
theorem stageOf_delayed (t : ℚ) :
    stageOf (some t) = some Stage.Delayed ↔ 12 < t ∧ t ≤ 24 := by
  constructor
  · intro h
    simp only [stageOf] at h
    split_ifs at h with h1 h2 h3 h4 h5 <;> simp_all
  · rintro ⟨ha, hb⟩
    simp only [stageOf]
    rw [if_neg (by rintro ⟨_, hx⟩; linarith), if_neg (by rintro ⟨_, hx⟩; linarith),
      if_neg (by rintro ⟨_, hx⟩; linarith), if_pos ⟨ha, hb⟩]

/-- Helper: the Critical label characterised by its bucket. -/
theorem stageOf_critical (t : ℚ) : stageOf (some t) = some Stage.Critical ↔ 24 < t := by
  constructor
  · intro h
    simp only [stageOf] at h
    split_ifs at h with h1 h2 h3 h4 h5 <;> simp_all
  · intro ha
    simp only [stageOf]
    rw [if_neg (by rintro ⟨_, hx⟩; linarith), if_neg (by rintro ⟨_, hx⟩; linarith),
      if_neg (by rintro ⟨_, hx⟩; linarith), if_neg (by rintro ⟨_, hx⟩; linarith),
      if_pos ha]

/-- Helper: a non-positive processing time gets no stage label. -/
theorem stageOf_none_of_nonpos (t : ℚ) (h : t ≤ 0) : stageOf (some t) = none := by
  have n1 : ¬ (0 < t ∧ t ≤ 2) := by rintro ⟨ha, _⟩; linarith
  have n2 : ¬ (2 < t ∧ t ≤ 6) := by rintro ⟨ha, _⟩; linarith
  have n3 : ¬ (6 < t ∧ t ≤ 12) := by rintro ⟨ha, _⟩; linarith
  have n4 : ¬ (12 < t ∧ t ≤ 24) := by rintro ⟨ha, _⟩; linarith
  have n5 : ¬ (24 < t) := by linarith
  simp only [stageOf, if_neg n1, if_neg n2, if_neg n3, if_neg n4, if_neg n5]

/-- Helper: counting each dedup key's occurrences recovers the list length. -/
theorem sum_countP_dedup {α : Type} [DecidableEq α] (l : List α) :
    (l.dedup.map (fun k => l.countP (fun x => decide (x = k)))).sum = l.length := by
  have hfun : (fun k => l.countP (fun x => decide (x = k))) =
      fun k => List.count k l := rfl
  rw [hfun, List.sum_map_count_dedup_eq_length]

/-- Helper: the bottleneck counts add up to the number of rows that received
a stage label, so unlabelled rows are excluded from the counts. -/
theorem bottleneck_counts_total (rows : List Row) :
    ((identify_bottlenecks rows).map (fun b => b.count)).sum =
      rows.countP (fun r => (stageOf r.processing_time).isSome) := by
  unfold identify_bottlenecks
  split_ifs with h
  · have hnil : rows = [] := by simpa using h
    subst hnil
    rfl
  · rw [List.map_map]
    have hcomp : ((fun b : BRow => b.count) ∘ fun k : Nat × String × Stage =>
        (⟨k.1, k.2.1, k.2.2, (stagedKeys rows).countP (fun x => decide (x = k))⟩ : BRow)) =
        fun k => (stagedKeys rows).countP (fun x => decide (x = k)) := rfl
    rw [hcomp, sum_countP_dedup]
    unfold stagedKeys
    rw [length_filterMap_eq_countP]
    congr 1
    funext r
    cases hr : stageOf r.processing_time <;> simp [hr]

/-- C2 counterexample: a row with processing_time = 6 is labelled "Normal"
(the 6-hour edge belongs to the (2, 6] bucket), not "Extended" as the claim
predicts. -/
theorem C2_counterexample :
    identify_bottlenecks [rowPT6] = [⟨1, "W1", Stage.Normal, 1⟩]
    ∧ Stage.Normal ≠ Stage.Extended := by
  decide

/-- C2 amended: the stage buckets are left-open and right-closed —
(0,2] Rapid, (2,6] Normal, (6,12] Extended, (12,24] Delayed, (24,∞)
Critical — so both 5 and 6 are "Normal"; missing, negative and zero
processing times get no stage, and the bottleneck counts cover exactly the
labelled rows. -/
theorem C2_amended :
    (∀ t : ℚ, (stageOf (some t) = some Stage.Rapid ↔ 0 < t ∧ t ≤ 2)
      ∧ (stageOf (some t) = some Stage.Normal ↔ 2 < t ∧ t ≤ 6)
      ∧ (stageOf (some t) = some Stage.Extended ↔ 6 < t ∧ t ≤ 12)
      ∧ (stageOf (some t) = some Stage.Delayed ↔ 12 < t ∧ t ≤ 24)
      ∧ (stageOf (some t) = some Stage.Critical ↔ 24 < t)
      ∧ (t ≤ 0 → stageOf (some t) = none))
    ∧ stageOf none = none
    ∧ stageOf (some 5) = some Stage.Normal
    ∧ stageOf (some 6) = some Stage.Normal
    ∧ (∀ rows : List Row, ((identify_bottlenecks rows).map (fun b => b.count)).sum =
        rows.countP (fun r => (stageOf r.processing_time).isSome)) := by
  refine ⟨fun t => ?_, rfl, by decide, by decide, bottleneck_counts_total⟩
  exact ⟨stageOf_rapid t, stageOf_normal t, stageOf_extended t, stageOf_delayed t,
    stageOf_critical t, stageOf_none_of_nonpos t⟩

/-- C2 witness: the amended theorem instantiated at a negative and a
boundary processing time. -/
theorem C2_amended_witness :
    stageOf (some (-1 : ℚ)) = none ∧ stageOf (some 5) = some Stage.Normal :=
  ⟨(C2_amended.1 (-1)).2.2.2.2.2 (by norm_num), C2_amended.2.2.1⟩

/-- C4 counterexample: with the `is_fulfilled` column present but holding
the unusable string "yes", the row is not counted as fulfilled even though
its order_status is "delivered", so the rate is 0 where the claim predicts
100. -/
theorem C4_counterexample :
    calculate_fulfillment_rate ⟨[rowYes], true⟩ = 0
    ∧ statusFulfilled rowYes = true := by
  constructor
  · have hcell : rowYes.is_fulfilled = FVal.fstr "yes" := rfl
    simp [calculate_fulfillment_rate, fulfilledColSum, objectDtype, isBoolVal, hcell,
      mapFulfilled, fvalSum]
  · decide

/-- C4 amended: the order_status fallback is used only when the
`is_fulfilled` column is absent from the frame; when the column is present,
a row counts as fulfilled exactly when its cell reads as true (boolean true,
the string "True", or 1), and unusable cells contribute 0 regardless of
order_status. -/
theorem C4_amended (df : DFrame) (h : df.rows ≠ []) :
    (df.hasFulfilledCol = true →
      calculate_fulfillment_rate df =
        ((df.rows.countP (fun r => usableTrue r.is_fulfilled) : ℚ) / df.rows.length) * 100)
    ∧ (df.hasFulfilledCol = false →
      calculate_fulfillment_rate df =
        ((df.rows.countP statusFulfilled : ℚ) / df.rows.length) * 100) := by
  obtain ⟨rws, hcol⟩ := df
  cases rws with
  | nil => exact absurd rfl h
  | cons a l =>
    constructor
    · intro hc
      subst hc
      simp only [calculate_fulfillment_rate, List.isEmpty_cons, Bool.false_eq_true,
        if_false, if_true]
      rw [fulfilledColSum_eq_countP, List.countP_map]
      rfl
    · intro hc
      subst hc
      simp only [calculate_fulfillment_rate, List.isEmpty_cons, Bool.false_eq_true,
        if_false]

/-- C4 witness: the amended theorem instantiated at both column layouts of a
one-row frame. -/
theorem C4_amended_witness :
    calculate_fulfillment_rate ⟨[rowYes], true⟩ =
      ((([rowYes] : List Row).countP (fun r => usableTrue r.is_fulfilled) : ℚ) /
        ([rowYes] : List Row).length) * 100
    ∧ calculate_fulfillment_rate ⟨[rowYes], false⟩ =
      ((([rowYes] : List Row).countP statusFulfilled : ℚ) /
        ([rowYes] : List Row).length) * 100 :=
  ⟨(C4_amended ⟨[rowYes], true⟩ (List.cons_ne_nil _ _)).1 rfl,
    (C4_amended ⟨[rowYes], false⟩ (List.cons_ne_nil _ _)).2 rfl⟩

/-- C8: "All Teams" and unknown presets return the dataset unchanged; each
named preset keeps exactly the rows its predicate accepts; rows with missing
team_assignment and product_category match no predicate. -/
theorem C8_team_filter (rows : List Row) (p : String) (r : Row) :
    filter_data_by_team rows "All Teams" = rows
    ∧ (p ∉ (["All Teams", "Brand Team", "Performance Team", "Social Media Team"] :
        List String) → filter_data_by_team rows p = rows)
    ∧ (r ∈ filter_data_by_team rows "Brand Team" ↔ r ∈ rows ∧ brandPred r = true)
    ∧ (r ∈ filter_data_by_team rows "Performance Team" ↔
        r ∈ rows ∧ performancePred r = true)
    ∧ (r ∈ filter_data_by_team rows "Social Media Team" ↔
        r ∈ rows ∧ socialPred r = true)
    ∧ (r.team_assignment = none → r.product_category = none →
        brandPred r = false ∧ performancePred r = false ∧ socialPred r = false) := by
  refine ⟨rfl, ?_, ?_, ?_, ?_, ?_⟩
  · intro hp
    simp only [List.mem_cons, List.not_mem_nil, or_false, not_or] at hp
    obtain ⟨h1, h2, h3, h4⟩ := hp
    unfold filter_data_by_team
    rw [if_neg h1, if_neg h2, if_neg h3, if_neg h4]
  · unfold filter_data_by_team
    rw [if_neg (by decide), if_pos rfl]
    exact List.mem_filter
  · unfold filter_data_by_team
    rw [if_neg (by decide), if_neg (by decide), if_pos rfl]
    exact List.mem_filter
  · unfold filter_data_by_team
    rw [if_neg (by decide), if_neg (by decide), if_neg (by decide), if_pos rfl]
    exact List.mem_filter
  · intro h1 h2
    refine ⟨?_, ?_, ?_⟩ <;>
      simp [brandPred, performancePred, socialPred, strContainsCI, h1, h2]

/-- C8 witness: the theorem instantiated at a one-row dataset, an unknown
preset and the concrete row. -/
theorem C8_team_filter_witness :
    filter_data_by_team [cRowBase] "X" = [cRowBase]
    ∧ (cRowBase ∈ filter_data_by_team [cRowBase] "Brand Team" ↔
        cRowBase ∈ [cRowBase] ∧ brandPred cRowBase = true) :=
  ⟨(C8_team_filter [cRowBase] "X" cRowBase).2.1 (by decide),
    (C8_team_filter [cRowBase] "X" cRowBase).2.2.1⟩

/-- C3 counterexample: calling `calculate_delay_percentage` on a fresh
one-row dataset leaves the caller's frame holding a new `is_delayed` column,
so the dataset is not equal to its value before the call. -/
theorem C3_counterexample :
    afterDelayPercentage [cRowBase] ≠ [cRowBase] := by
  decide

/-- C3 amended: `filter_data_by_team` really leaves the caller's dataset
unchanged, but each analysis function writes its derived or coerced columns
into the caller's frame in place: on any non-empty dataset whose derived
columns are still unset, the frame after the call differs from the frame
before it (for `calculate_fulfillment_rate`, exactly when the column is
absent or holds string cells; a pure native-boolean column is left alone). -/
theorem C3_amended :
    (∀ (rows : List Row) (p : String), afterFilterByTeam rows p = rows)
    ∧ (∀ rows : List Row, rows ≠ [] → (∀ r ∈ rows, r.processing_time_numeric = none) →
        afterAvgHandlingTime rows ≠ rows)
    ∧ (∀ rows : List Row, rows ≠ [] → (∀ r ∈ rows, r.is_delayed = none) →
        afterDelayPercentage rows ≠ rows)
    ∧ (∀ rows : List Row, rows ≠ [] → (∀ r ∈ rows, r.processing_time_numeric = none) →
        afterWarehousePerformance rows ≠ rows)
    ∧ (∀ rows : List Row, rows ≠ [] → (∀ r ∈ rows, r.stage_col = none) →
        afterBottlenecks rows ≠ rows)
    ∧ (∀ rows : List Row, rows ≠ [] → (∀ r ∈ rows, r.date_col = none) →
        afterAnalyzeTrends rows ≠ rows)
    ∧ (∀ df : DFrame, df.hasFulfilledCol = true →
        (∃ r ∈ df.rows, ∃ s : String, r.is_fulfilled = FVal.fstr s) →
        afterFulfillmentRate df ≠ df)
    ∧ (∀ df : DFrame, df.hasFulfilledCol = true →
        (∀ r ∈ df.rows, isBoolVal r.is_fulfilled = true) →
        afterFulfillmentRate df = df)
    ∧ (∀ df : DFrame, df.hasFulfilledCol = false → df.rows ≠ [] →
        (∀ r ∈ df.rows, r.fulfilled = none) →
        afterFulfillmentRate df ≠ df) := by
  refine ⟨fun rows p => rfl, ?_, ?_, ?_, ?_, ?_, ?_, ?_, ?_⟩
  · intro rows hne hall
    obtain ⟨r, hr⟩ := List.exists_mem_of_ne_nil rows hne
    unfold afterAvgHandlingTime
    refine map_ne_self_of_mem hr fun heq => ?_
    have hfield := congrArg Row.processing_time_numeric heq
    rw [hall r hr] at hfield
    simp at hfield
  · intro rows hne hall
    obtain ⟨r, hr⟩ := List.exists_mem_of_ne_nil rows hne
    unfold afterDelayPercentage
    rw [if_neg (by simpa using hne)]
    refine map_ne_self_of_mem hr fun heq => ?_
    have hfield := congrArg Row.is_delayed heq
    rw [hall r hr] at hfield
    simp at hfield
  · intro rows hne hall
    obtain ⟨r, hr⟩ := List.exists_mem_of_ne_nil rows hne
    unfold afterWarehousePerformance
    rw [if_neg (by simpa using hne)]
    refine map_ne_self_of_mem hr fun heq => ?_
    have hfield := congrArg Row.processing_time_numeric heq
    rw [hall r hr] at hfield
    simp at hfield
  · intro rows hne hall
    obtain ⟨r, hr⟩ := List.exists_mem_of_ne_nil rows hne
    unfold afterBottlenecks
    rw [if_neg (by simpa using hne)]
    refine map_ne_self_of_mem hr fun heq => ?_
    have hfield := congrArg Row.stage_col heq
    rw [hall r hr] at hfield
    simp at hfield
  · intro rows hne hall
    obtain ⟨r, hr⟩ := List.exists_mem_of_ne_nil rows hne
    unfold afterAnalyzeTrends
    rw [if_neg (by simpa using hne)]
    refine map_ne_self_of_mem hr fun heq => ?_
    have hfield := congrArg Row.date_col heq
    rw [hall r hr] at hfield
    simp at hfield
  · intro df hcol hex
    obtain ⟨rws, hc⟩ := df
    obtain ⟨r, hr, s, hs⟩ := hex
    simp only at hcol hr hs
    subst hcol
    have hne' : rws.isEmpty = false := by
      simpa using List.ne_nil_of_mem hr
    have hobj : objectDtype (rws.map (·.is_fulfilled)) = true := by
      unfold objectDtype
      rw [Bool.not_eq_true']
      refine List.all_eq_false.mpr ⟨r.is_fulfilled, List.mem_map_of_mem _ hr, ?_⟩
      rw [hs]
      simp [isBoolVal]
    simp only [afterFulfillmentRate, hne', Bool.false_eq_true, if_false, if_true, hobj]
    intro heq
    have hrows := congrArg DFrame.rows heq
    simp only at hrows
    refine map_ne_self_of_mem hr (fun heq2 => ?_) hrows
    have hfield := congrArg Row.is_fulfilled heq2
    simp only at hfield
    rw [hs] at hfield
    by_cases h1 : s = "True" <;> by_cases h2 : s = "False" <;>
      simp [mapFulfilled, h1, h2] at hfield
  · intro df hcol hall
    obtain ⟨rws, hc⟩ := df
    simp only at hcol hall
    subst hcol
    have hball : (rws.map (·.is_fulfilled)).all isBoolVal = true :=
      List.all_eq_true.mpr (fun x hx => by
        obtain ⟨r, hr, rfl⟩ := List.mem_map.mp hx
        exact hall r hr)
    have hobj : objectDtype (rws.map (·.is_fulfilled)) = false := by
      unfold objectDtype
      rw [hball]
      rfl
    by_cases he : rws.isEmpty
    · simp [afterFulfillmentRate, he]
    · simp [afterFulfillmentRate, he, hobj]
  · intro df hcol hne hall
    obtain ⟨rws, hc⟩ := df
    simp only at hcol hne hall
    subst hcol
    obtain ⟨r, hr⟩ := List.exists_mem_of_ne_nil rws hne
    have hne' : rws.isEmpty = false := by simpa using hne
    simp only [afterFulfillmentRate, hne', Bool.false_eq_true, if_false]
    intro heq
    have hrows := congrArg DFrame.rows heq
    simp only at hrows
    refine map_ne_self_of_mem hr (fun heq2 => ?_) hrows
    have hfield := congrArg Row.fulfilled heq2
    rw [hall r hr] at hfield
    simp at hfield

/-- C3 witness: the amended theorem instantiated at concrete one-row
frames. -/
theorem C3_amended_witness :
    afterFilterByTeam [cRowBase] "All Teams" = [cRowBase]
    ∧ afterAvgHandlingTime [cRowBase] ≠ [cRowBase]
    ∧ afterFulfillmentRate ⟨[cRowBase], true⟩ = ⟨[cRowBase], true⟩ :=
  ⟨C3_amended.1 [cRowBase] "All Teams",
    C3_amended.2.1 [cRowBase] (by decide) (by decide),
    C3_amended.2.2.2.2.2.2.2.1 ⟨[cRowBase], true⟩ rfl (by decide)⟩

/-- C9: every warehouse summary row's performance score is the weighted
combination 0.4·avg_processing_time + 0.4·delay_rate − 0.2·fulfillment_rate,
and the formula gives −6 at (10, 20, 90). -/
theorem C9_performance_score (rows : List Row) (w : WRow)
    (h : w ∈ get_warehouse_performance rows) :
    w.performance_score =
      0.4 * w.avg_processing_time + 0.4 * w.delay_rate - 0.2 * w.fulfillment_rate
    ∧ perfScore 10 20 90 = -6 := by
  constructor
  · by_cases hne : rows.isEmpty
    · simp [get_warehouse_performance, hne] at h
    · simp only [get_warehouse_performance, hne, Bool.false_eq_true, if_false] at h
      obtain ⟨k, hk, rfl⟩ := List.mem_map.mp h
      dsimp only
      rw [perfScore]
      ring
  · rw [perfScore]
    norm_num

/-- C9 witness: the theorem instantiated at the one-row dataset and its
summary row. -/
theorem C9_performance_score_witness :
    demoWRow.performance_score =
      0.4 * demoWRow.avg_processing_time + 0.4 * demoWRow.delay_rate -
        0.2 * demoWRow.fulfillment_rate
    ∧ perfScore 10 20 90 = -6 :=
  C9_performance_score [cRowBase] demoWRow (by
    have hgw : get_warehouse_performance [cRowBase] = [demoWRow] := by
      norm_num [get_warehouse_performance, meanOr0, objectDtype, isBoolVal, wkey,
        isDelayedRow, perfScore, cRowBase, demoWRow, List.filterMap_cons,
        List.filterMap_nil, Function.comp]
      refine ⟨by simp, by simp, ?_⟩
      rw [if_neg (by simp), if_neg (by simp)]
      norm_num
    rw [hgw]
    exact List.mem_singleton.mpr rfl)

/-- C10: the slowest-warehouses query returns the empty table on an empty
summary, otherwise at most n rows of the input, ordered by descending
average processing time, each at least as slow as every row it leaves out. -/
theorem C10_slowest (wp : List WRow) (n : Nat) :
    (wp = [] → get_slowest_warehouses wp n = [])
    ∧ (get_slowest_warehouses wp n).length ≤ n
    ∧ (∀ w ∈ get_slowest_warehouses wp n, w ∈ wp)
    ∧ List.Sorted slowRel (get_slowest_warehouses wp n)
    ∧ (∀ x ∈ get_slowest_warehouses wp n, ∀ y ∈ wp,
        y ∉ get_slowest_warehouses wp n →
        y.avg_processing_time ≤ x.avg_processing_time) := by
  by_cases he : wp.isEmpty
  · have hnil : wp = [] := by simpa using he
    subst hnil
    simp [get_slowest_warehouses]
  · have hs : List.Sorted slowRel (List.insertionSort slowRel wp) :=
      List.sorted_insertionSort slowRel wp
    have hperm := List.perm_insertionSort slowRel wp
    have hdef : get_slowest_warehouses wp n = (List.insertionSort slowRel wp).take n := by
      simp [get_slowest_warehouses, he]
    refine ⟨?_, ?_, ?_, ?_, ?_⟩
    · intro hnil
      subst hnil
      simp at he
    · rw [hdef, List.length_take]
      exact min_le_left _ _
    · intro w hw
      rw [hdef] at hw
      exact hperm.subset (List.mem_of_mem_take hw)
    · rw [hdef]
      exact List.Pairwise.sublist (List.take_sublist n _) hs
    · intro x hx y hy hyn
      rw [hdef] at hx hyn
      have hys : y ∈ List.insertionSort slowRel wp := hperm.mem_iff.mpr hy
      have hsplit := List.take_append_drop n (List.insertionSort slowRel wp)
      rw [← hsplit] at hys
      have hyd : y ∈ (List.insertionSort slowRel wp).drop n := by
        rcases List.mem_append.mp hys with hyt | hyd
        · exact absurd hyt hyn
        · exact hyd
      have hpw : List.Pairwise slowRel ((List.insertionSort slowRel wp).take n ++
          (List.insertionSort slowRel wp).drop n) := by
        rw [hsplit]
        exact hs
      exact (List.pairwise_append.mp hpw).2.2 x hx y hyd

/-- C10 witness: the theorem instantiated at a two-row summary with n = 1
and at the empty summary. -/
theorem C10_slowest_witness :
    get_slowest_warehouses [] 0 = []
    ∧ (get_slowest_warehouses [demoWRow2, demoWRow] 1).length ≤ 1
    ∧ List.Sorted slowRel (get_slowest_warehouses [demoWRow2, demoWRow] 1) :=
  ⟨(C10_slowest [] 0).1 rfl, (C10_slowest [demoWRow2, demoWRow] 1).2.1,
    (C10_slowest [demoWRow2, demoWRow] 1).2.2.2.1⟩

end WD
